import Mathlib

/-!
Verification of the hangman game-state engine (`models.py`, `api.py`).

Strings are modelled as `List Char`; Python integers as `Int`; the
Datastore entities `User`, `Game`, `Score` as Lean structures.  The
endpoint `make_move` is modelled as a pure function from the looked-up
game (an `Option Game`, since the key lookup may find nothing), the
game's owning user, the raw guess string and the current date to a
`MoveResult` describing exactly what the handler returns and which
entities it writes.
-/

namespace Hangman

/-- Truthiness of Python `re.match("^[a-zA-Z]+$", s)`.  `re.match`
anchors at the start of the string, `[a-zA-Z]+` consumes one or more
ASCII letters, and `$` matches at the end of the string *or just before
a newline at the end of the string* (Python semantics, no `re.MULTILINE`).
Hence the match succeeds exactly when `s` is a nonempty run of ASCII
letters, optionally followed by one final newline character. -/
def reMatchAlphaPlus (s : List Char) : Bool :=
  (!s.isEmpty && s.all Char.isAlpha) ||
  (!s.dropLast.isEmpty && s.dropLast.all Char.isAlpha && (s.getLast? == some '\n'))

/-- The entity `User` of `models.py` (identity and aggregate fields;
the derived `win_percentage` / `average_score` properties are not part
of the stored state). -/
structure User where
  name : String
  email : Option String
  wins : Int
  games_played : Int
  total_score : Int
deriving Repr, DecidableEq

/-- The method `User.add_win` of `models.py`. -/
def User.add_win (u : User) (final_score : Int) : User :=
  { u with
    wins := u.wins + 1
    games_played := u.games_played + 1
    total_score := u.total_score + final_score }

/-- The method `User.add_loss` of `models.py`. -/
def User.add_loss (u : User) : User :=
  { u with games_played := u.games_played + 1 }

/-- The entity `Game` of `models.py`.  `user` is the key of the owning
user, modelled by the user's name.  `guess_history` entries are the
pairs of strings appended by `make_move`. -/
structure Game where
  target_word : List Char
  target_word_length : Nat
  correct_letters_guessed : List Char
  target_word_progress : List Char
  wrong_guesses_allowed : Int
  wrong_guesses_remaining : Int
  guess_history : List (List Char × List Char)
  game_over : Bool
  user : String
deriving Repr, DecidableEq

/-- The entity `Score` of `models.py`.  The creation date is modelled
as an opaque `Nat` supplied by the caller (the code uses
`date.today()`). -/
structure Score where
  user : String
  date : Nat
  won : Bool
  wrong_guesses : Int
  final_score : Int
deriving Repr, DecidableEq

/-- The classmethod `Game.new_game` of `models.py`: validate the
candidate target word with `re.match("^[a-zA-Z]+$", ...)` and the
minimum-length check, then build the initial game.  A `ValueError` is
modelled as `Except.error` carrying the exception message. -/
def Game.new_game (user : String) (target_word : List Char) : Except String Game :=
  if !reMatchAlphaPlus target_word then
    Except.error "Target word must be a single word and must not contain any numbers or special characters"
  else if target_word.length < 8 then
    Except.error "Target word must be at least 8 characters long"
  else
    Except.ok
      { target_word := target_word
        target_word_length := target_word.length
        correct_letters_guessed := []
        target_word_progress := List.replicate target_word.length '*'
        wrong_guesses_allowed := 10
        wrong_guesses_remaining := 10
        guess_history := []
        game_over := false
        user := user }

/-- The method `Game.end_game` of `models.py`: mark the game over,
build the `Score`, and update the owning user (`add_win` with
`wrong_guesses_remaining` as the final score when won, `add_loss`
otherwise).  Returns the persisted terminal game, the persisted score,
and the updated user. -/
def Game.end_game (g : Game) (u : User) (today : Nat) (won : Bool) : Game × Score × User :=
  ({ g with game_over := true },
   { user := g.user
     date := today
     won := won
     wrong_guesses := g.wrong_guesses_allowed - g.wrong_guesses_remaining
     final_score := g.wrong_guesses_remaining },
   if won then u.add_win g.wrong_guesses_remaining else u.add_loss)

/-- The Progress Renderer: the loop of `make_move` (api.py lines
103-109) rewrites `list(game.target_word)` position by position,
keeping each character that is a member of `correct_letters_guessed`
and masking every other position with `'*'`. -/
def render_progress (target_word : List Char) (guessed : List Char) : List Char :=
  target_word.map (fun c => if c ∈ guessed then c else '*')

/-- Outcome of a `make_move` request.  `attributeError` is the crash
produced by dereferencing `game.game_over` when the lookup returned
`None`; `gameAlreadyOver` is the early return of the unchanged game
with message `"Game already over!"`; `badRequest` is a raised
`BadRequestException` (nothing is written); `moved` is the non-terminal
branch (the updated game is persisted and returned with the message);
`ended` records the invocation of `end_game` with its `won` flag, the
persisted terminal game, the created score, the updated user, and the
returned message. -/
inductive MoveResult where
  | attributeError : MoveResult
  | gameAlreadyOver : Game → String → MoveResult
  | badRequest : String → MoveResult
  | moved : Game → String → MoveResult
  | ended : Bool → Game → Score → User → String → MoveResult
deriving Repr, DecidableEq

/-- The state of the game after a `make_move` request whose prior state
was `g`: the game carried by the result, or `g` itself when the request
wrote nothing (crash, early return, raised exception). -/
def MoveResult.gameAfter (g : Game) : MoveResult → Game
  | .attributeError => g
  | .gameAlreadyOver g' _ => g'
  | .badRequest _ => g
  | .moved g' _ => g'
  | .ended _ g' _ _ _ => g'

/-- The guess-application block of `make_move` (api.py lines 103-115),
run on the already validated, case-folded letter `l`.  If `l` occurs in
the target word it is appended to `correct_letters_guessed`, the
progress string is recomputed from the updated list, and a correct
history entry is appended; otherwise `wrong_guesses_remaining` is
decremented and an incorrect history entry is appended.  Returns the
updated game and the base result message. -/
def make_move_apply (game : Game) (l : Char) : Game × String :=
  if l ∈ game.target_word then
    ({ game with
        correct_letters_guessed := game.correct_letters_guessed ++ [l]
        target_word_progress :=
          render_progress game.target_word (game.correct_letters_guessed ++ [l])
        guess_history := game.guess_history ++
          [("Guess: ".toList ++ [l], "Result: Correct letter guess".toList)] },
     "Correct letter guess!")
  else
    ({ game with
        wrong_guesses_remaining := game.wrong_guesses_remaining - 1
        guess_history := game.guess_history ++
          [("Guess: ".toList ++ [l], "Result: Wrong letter guess".toList)] },
     "Wrong letter guess!")

/-- The terminal check of `make_move` (api.py lines 117-125), evaluated
on the game produced by the guess application: win first (progress
equals the target word), then loss (`wrong_guesses_remaining < 1`),
else persist and return the non-terminal game. -/
def make_move_finish (game : Game) (u : User) (msg : String) (today : Nat) : MoveResult :=
  if game.target_word_progress = game.target_word then
    MoveResult.ended true (game.end_game u today true).1 (game.end_game u today true).2.1
      (game.end_game u today true).2.2 (msg ++ " You win!")
  else if game.wrong_guesses_remaining < 1 then
    MoveResult.ended false (game.end_game u today false).1 (game.end_game u today false).2.1
      (game.end_game u today false).2.2 (msg ++ " Game over!")
  else
    MoveResult.moved game msg

/-- The endpoint `make_move` of `api.py`.  Modelled from the spec:
`get_by_urlsafe` lives in `utils.py`, which is not part of the two
source files; per the repository interface contract
(`GameRepo.get(id) -> Game | None`, spec section 6) its outcome is an
`Option Game` argument.  The handler itself reads `game.game_over`
without a `None` check, so a missing game is the `attributeError`
crash.  `u` is the owning user that `game.user.get()` would fetch. -/
def make_move : Option Game → User → List Char → Nat → MoveResult
  | none, _, _, _ => MoveResult.attributeError
  | some game, u, guess, today =>
    if game.game_over then MoveResult.gameAlreadyOver game "Game already over!"
    else if !reMatchAlphaPlus guess then
      MoveResult.badRequest "Letter guess must be an alphabet"
    else if guess.length ≠ 1 then
      MoveResult.badRequest "Only single letters allowed as guesses"
    else if (guess.map Char.toLower).headD '*' ∈ game.correct_letters_guessed then
      MoveResult.badRequest "Letter has previously been guessed"
    else
      make_move_finish (make_move_apply game ((guess.map Char.toLower).headD '*')).1 u
        (make_move_apply game ((guess.map Char.toLower).headD '*')).2 today

/-- Games reachable through the engine: a game freshly created by
`Game.new_game`, or the state left behind by any `make_move` request
against a reachable game. -/
inductive Reachable : Game → Prop where
  | init (user : String) (w : List Char) (g : Game) :
      Game.new_game user w = Except.ok g → Reachable g
  | step (g : Game) (u : User) (guess : List Char) (today : Nat) :
      Reachable g → Reachable ((make_move (some g) u guess today).gameAfter g)

/-- Invariant of reachable games: the remaining wrong-guess budget is
between 0 and the allowance, and while the game is in progress at least
one wrong guess remains and the progress string has not yet reached the
target word. -/
def GameInv (g : Game) : Prop :=
  0 ≤ g.wrong_guesses_remaining ∧
  g.wrong_guesses_remaining ≤ g.wrong_guesses_allowed ∧
  (g.game_over = false →
    1 ≤ g.wrong_guesses_remaining ∧ g.target_word_progress ≠ g.target_word)

/-- A sample user for concrete instantiations. -/
def sampleUser : User :=
  { name := "alice", email := none, wins := 0, games_played := 0, total_score := 0 }

/-- The freshly created game on the target word "elephant". -/
def sampleGame : Game :=
  { target_word := "elephant".toList
    target_word_length := 8
    correct_letters_guessed := []
    target_word_progress := List.replicate 8 '*'
    wrong_guesses_allowed := 10
    wrong_guesses_remaining := 10
    guess_history := []
    game_over := false
    user := "alice" }

/-- The freshly created game on the target word "aaaaaaaa". -/
def sampleGameA : Game :=
  { target_word := "aaaaaaaa".toList
    target_word_length := 8
    correct_letters_guessed := []
    target_word_progress := List.replicate 8 '*'
    wrong_guesses_allowed := 10
    wrong_guesses_remaining := 10
    guess_history := []
    game_over := false
    user := "alice" }

/-- The state of `sampleGame` after one wrong guess of the letter z. -/
def sampleGameZ : Game :=
  { sampleGame with
      wrong_guesses_remaining := 9
      guess_history := [("Guess: ".toList ++ ['z'], "Result: Wrong letter guess".toList)] }

/-- The score produced by winning `sampleGameA` with the single guess a
on day 5. -/
def sampleWinScore : Score :=
  { user := "alice", date := 5, won := true, wrong_guesses := 0, final_score := 10 }

/-! Helper lemmas. -/

/-- Unfolding of `make_move` on a game the lookup did find. -/
theorem make_move_some_eq (game : Game) (u : User) (guess : List Char) (today : Nat) :
    make_move (some game) u guess today =
      (if game.game_over then MoveResult.gameAlreadyOver game "Game already over!"
       else if !reMatchAlphaPlus guess then
         MoveResult.badRequest "Letter guess must be an alphabet"
       else if guess.length ≠ 1 then
         MoveResult.badRequest "Only single letters allowed as guesses"
       else if (guess.map Char.toLower).headD '*' ∈ game.correct_letters_guessed then
         MoveResult.badRequest "Letter has previously been guessed"
       else
         make_move_finish (make_move_apply game ((guess.map Char.toLower).headD '*')).1 u
           (make_move_apply game ((guess.map Char.toLower).headD '*')).2 today) := rfl

/-- A word accepted by the target-word pattern contains at least one
ASCII letter. -/
theorem reMatch_exists_alpha (w : List Char) (h : reMatchAlphaPlus w = true) :
    ∃ c ∈ w, c.isAlpha = true := by
  unfold reMatchAlphaPlus at h
  rw [Bool.or_eq_true, Bool.and_eq_true, Bool.and_eq_true, Bool.and_eq_true] at h
  rcases h with ⟨hne, hall⟩ | ⟨⟨hne, hall⟩, heq⟩
  · rw [List.all_eq_true] at hall
    obtain ⟨c, hc⟩ := List.exists_mem_of_ne_nil w (by simpa using hne)
    exact ⟨c, hc, hall c hc⟩
  · rw [List.all_eq_true] at hall
    obtain ⟨c, hc⟩ := List.exists_mem_of_ne_nil w.dropLast (by simpa using hne)
    exact ⟨c, List.dropLast_subset _ hc, hall c hc⟩

/-- A word accepted by the target-word pattern is never an all-mask
string, since `'*'` is not a letter. -/
theorem reMatch_not_replicate_star (w : List Char) (h : reMatchAlphaPlus w = true)
    (n : Nat) : List.replicate n '*' ≠ w := by
  intro hw
  obtain ⟨c, hc, hca⟩ := reMatch_exists_alpha w h
  rw [← hw] at hc
  have hcs := List.eq_of_mem_replicate hc
  subst hcs
  exact absurd hca (by decide)

/-- A single ASCII letter passes the guess pattern. -/
theorem reMatch_singleton (c : Char) (hc : c.isAlpha = true) :
    reMatchAlphaPlus [c] = true := by
  simp [reMatchAlphaPlus, hc]

/-- Inversion of a successful `Game.new_game`: the word passed both
checks and the created game is the literal initial record. -/
theorem new_game_ok (user : String) (w : List Char) (g : Game)
    (h : Game.new_game user w = Except.ok g) :
    reMatchAlphaPlus w = true ∧ 8 ≤ w.length ∧
    g = { target_word := w, target_word_length := w.length, correct_letters_guessed := [],
          target_word_progress := List.replicate w.length '*', wrong_guesses_allowed := 10,
          wrong_guesses_remaining := 10, guess_history := [], game_over := false,
          user := user } := by
  unfold Game.new_game at h
  by_cases h1 : reMatchAlphaPlus w
  · by_cases h2 : w.length < 8
    · simp [h1, h2] at h
    · simp [h1, h2] at h
      exact ⟨h1, by omega, h.symm⟩
  · simp [h1] at h

/-- A freshly created game satisfies the invariant, with the full
wrong-guess budget. -/
theorem new_game_inv (user : String) (w : List Char) (g : Game)
    (h : Game.new_game user w = Except.ok g) :
    GameInv g ∧ g.wrong_guesses_remaining = g.wrong_guesses_allowed := by
  obtain ⟨h1, h2, rfl⟩ := new_game_ok user w g h
  refine ⟨⟨by norm_num, by norm_num, fun _ => ⟨by norm_num, ?_⟩⟩, rfl⟩
  exact reMatch_not_replicate_star w h1 w.length

/-- The terminal check preserves the invariant and never touches the
wrong-guess counters. -/
theorem finish_gameAfter_inv (g1 : Game) (u : User) (msg : String) (today : Nat) (g2 : Game)
    (h0 : 0 ≤ g1.wrong_guesses_remaining)
    (hle : g1.wrong_guesses_remaining ≤ g1.wrong_guesses_allowed)
    (hov : g1.game_over = false) :
    GameInv ((make_move_finish g1 u msg today).gameAfter g2) ∧
    ((make_move_finish g1 u msg today).gameAfter g2).wrong_guesses_remaining
        = g1.wrong_guesses_remaining ∧
    ((make_move_finish g1 u msg today).gameAfter g2).wrong_guesses_allowed
        = g1.wrong_guesses_allowed := by
  unfold make_move_finish
  split
  · simp [MoveResult.gameAfter, Game.end_game, GameInv]
    omega
  · split
    · simp [MoveResult.gameAfter, Game.end_game, GameInv]
      omega
    · rename_i hnw hnl
      simp [MoveResult.gameAfter, GameInv, hov]
      refine ⟨h0, hle, by omega, hnw⟩

/-- The guess application leaves the counter unchanged or decrements it
by one, and never touches the allowance or the terminal flag. -/
theorem apply_facts (game : Game) (l : Char) :
    ((make_move_apply game l).1.wrong_guesses_remaining = game.wrong_guesses_remaining ∨
     (make_move_apply game l).1.wrong_guesses_remaining = game.wrong_guesses_remaining - 1) ∧
    (make_move_apply game l).1.wrong_guesses_allowed = game.wrong_guesses_allowed ∧
    (make_move_apply game l).1.game_over = game.game_over := by
  by_cases hmem : l ∈ game.target_word
  · simp [make_move_apply, hmem]
  · simp [make_move_apply, hmem]

/-- One `make_move` request preserves the invariant, never increases
`wrong_guesses_remaining`, and never changes the allowance. -/
theorem make_move_gameAfter_inv (g : Game) (u : User) (guess : List Char) (today : Nat)
    (hg : GameInv g) :
    GameInv ((make_move (some g) u guess today).gameAfter g) ∧
    ((make_move (some g) u guess today).gameAfter g).wrong_guesses_remaining
        ≤ g.wrong_guesses_remaining ∧
    ((make_move (some g) u guess today).gameAfter g).wrong_guesses_allowed
        = g.wrong_guesses_allowed := by
  rw [make_move_some_eq]
  split
  · exact ⟨hg, le_refl _, rfl⟩
  · split
    · exact ⟨hg, le_refl _, rfl⟩
    · split
      · exact ⟨hg, le_refl _, rfl⟩
      · split
        · exact ⟨hg, le_refl _, rfl⟩
        · rename_i hov hre hlen hdup
          have hov' : g.game_over = false := by simpa using hov
          obtain ⟨hg0, hg1, hg2⟩ := hg
          have hrem1 : 1 ≤ g.wrong_guesses_remaining := (hg2 hov').1
          obtain ⟨hrem, hallow, hgo⟩ :=
            apply_facts g ((guess.map Char.toLower).headD '*')
          obtain ⟨hi, he, ha⟩ :=
            finish_gameAfter_inv (make_move_apply g ((guess.map Char.toLower).headD '*')).1 u
              (make_move_apply g ((guess.map Char.toLower).headD '*')).2 today g
              (by omega) (by rw [hallow]; omega) (by rw [hgo]; exact hov')
          exact ⟨hi, by rw [he]; omega, by rw [ha, hallow]⟩

/-- Every reachable game satisfies the invariant. -/
theorem reachable_inv (g : Game) (h : Reachable g) : GameInv g := by
  induction h with
  | init user w g hg => exact (new_game_inv user w g hg).1
  | step g u guess today hg ih => exact (make_move_gameAfter_inv g u guess today ih).1

/-- The terminal check never changes `wrong_guesses_remaining`. -/
theorem finish_gameAfter_rem (g1 : Game) (u : User) (msg : String) (today : Nat) (g2 : Game) :
    ((make_move_finish g1 u msg today).gameAfter g2).wrong_guesses_remaining
        = g1.wrong_guesses_remaining := by
  unfold make_move_finish
  split
  · simp [MoveResult.gameAfter, Game.end_game]
  · split
    · simp [MoveResult.gameAfter, Game.end_game]
    · simp [MoveResult.gameAfter]

/-- The terminal check never raises a bad-request error. -/
theorem finish_ne_badRequest (g1 : Game) (u : User) (msg : String) (today : Nat) (s : String) :
    make_move_finish g1 u msg today ≠ MoveResult.badRequest s := by
  unfold make_move_finish
  split
  · simp
  · split
    · simp
    · simp

/-- Inversion of a `make_move` call that returned a non-terminal game:
the returned game is the guess-application state and neither terminal
guard fired on it. -/
theorem moved_inversion (game : Game) (u : User) (guess : List Char) (today : Nat)
    (g1 : Game) (m1 : String)
    (hover : game.game_over = false) (hre : reMatchAlphaPlus guess = true)
    (hlen : guess.length = 1)
    (hdup : (guess.map Char.toLower).headD '*' ∉ game.correct_letters_guessed)
    (h : make_move (some game) u guess today = MoveResult.moved g1 m1) :
    g1 = (make_move_apply game ((guess.map Char.toLower).headD '*')).1 ∧
    g1.target_word_progress ≠ g1.target_word ∧ ¬ g1.wrong_guesses_remaining < 1 := by
  rw [make_move_some_eq, if_neg (by simp [hover]), if_neg (by simp [hre]),
    if_neg (by simp [hlen]), if_neg hdup] at h
  unfold make_move_finish at h
  split at h
  · exact absurd h (by simp)
  · split at h
    · exact absurd h (by simp)
    · rename_i hnw hnl
      injection h with h1 h2
      subst h1
      exact ⟨rfl, hnw, hnl⟩

/-! Claim theorems. -/

/-- C1: an accepted guess (in-progress game, single alphabetic letter,
case-folded, not among the prior correct guesses) is applied exactly
once before the terminal check; if the letter occurs in the target word
it is appended to `correct_letters_guessed`, the progress string is
recomputed, the counter is unchanged, a correct history entry is
appended and the message is "Correct letter guess!"; otherwise the
counter drops by exactly one, progress and correct guesses stay put, an
incorrect history entry is appended and the message is "Wrong letter
guess!"; exactly one history entry is appended either way. -/
theorem claim_C1_apply_guess (game : Game) (u : User) (guess : List Char) (today : Nat)
    (hover : game.game_over = false) (hre : reMatchAlphaPlus guess = true)
    (hlen : guess.length = 1)
    (l : Char) (hl : l = (guess.map Char.toLower).headD '*')
    (hdup : l ∉ game.correct_letters_guessed) :
    make_move (some game) u guess today =
      make_move_finish (make_move_apply game l).1 u (make_move_apply game l).2 today ∧
    (l ∈ game.target_word →
      (make_move_apply game l).1.correct_letters_guessed
          = game.correct_letters_guessed ++ [l] ∧
      (make_move_apply game l).1.target_word_progress
          = render_progress game.target_word (game.correct_letters_guessed ++ [l]) ∧
      (make_move_apply game l).1.wrong_guesses_remaining = game.wrong_guesses_remaining ∧
      (make_move_apply game l).1.guess_history = game.guess_history ++
          [("Guess: ".toList ++ [l], "Result: Correct letter guess".toList)] ∧
      (make_move_apply game l).2 = "Correct letter guess!") ∧
    (l ∉ game.target_word →
      (make_move_apply game l).1.wrong_guesses_remaining
          = game.wrong_guesses_remaining - 1 ∧
      (make_move_apply game l).1.target_word_progress = game.target_word_progress ∧
      (make_move_apply game l).1.correct_letters_guessed = game.correct_letters_guessed ∧
      (make_move_apply game l).1.guess_history = game.guess_history ++
          [("Guess: ".toList ++ [l], "Result: Wrong letter guess".toList)] ∧
      (make_move_apply game l).2 = "Wrong letter guess!") ∧
    (make_move_apply game l).1.guess_history.length = game.guess_history.length + 1 := by
  have hmain : make_move (some game) u guess today =
      make_move_finish (make_move_apply game l).1 u (make_move_apply game l).2 today := by
    subst hl
    rw [make_move_some_eq, if_neg (by simp [hover]), if_neg (by simp [hre]),
      if_neg (by simp [hlen]), if_neg hdup]
  refine ⟨hmain, fun hmem => ?_, fun hmem => ?_, ?_⟩
  · rw [make_move_apply, if_pos hmem]
    exact ⟨rfl, rfl, rfl, rfl, rfl⟩
  · rw [make_move_apply, if_neg hmem]
    exact ⟨rfl, rfl, rfl, rfl, rfl⟩
  · by_cases hmem : l ∈ game.target_word
    · rw [make_move_apply, if_pos hmem]
      simp
    · rw [make_move_apply, if_neg hmem]
      simp

/-- Witness for C1: guessing e on a fresh "elephant" game. -/
theorem claim_C1_apply_guess_witness :
    make_move (some sampleGame) sampleUser ['e'] 0 =
      make_move_finish (make_move_apply sampleGame 'e').1 sampleUser
        (make_move_apply sampleGame 'e').2 0 ∧
    (make_move_apply sampleGame 'e').1.wrong_guesses_remaining
        = sampleGame.wrong_guesses_remaining ∧
    (make_move_apply sampleGame 'e').1.guess_history.length
        = sampleGame.guess_history.length + 1 := by
  have h := claim_C1_apply_guess sampleGame sampleUser ['e'] 0 rfl (by decide) rfl
    'e' (by decide) (by decide)
  exact ⟨h.1, (h.2.1 (by decide)).2.2.1, h.2.2.2⟩

/-- C2: for an accepted guess the terminal check runs on the state left
by the guess application; the win condition (progress equals target) is
checked first and ends the game with won = true and " You win!"
appended; otherwise a counter below 1 ends the game with won = false
and " Game over!" appended; otherwise the non-terminal game is returned
with the base message. -/
theorem claim_C2_terminal_check (game : Game) (u : User) (guess : List Char) (today : Nat)
    (hover : game.game_over = false) (hre : reMatchAlphaPlus guess = true)
    (hlen : guess.length = 1)
    (l : Char) (hl : l = (guess.map Char.toLower).headD '*')
    (hdup : l ∉ game.correct_letters_guessed) :
    make_move (some game) u guess today =
      make_move_finish (make_move_apply game l).1 u (make_move_apply game l).2 today ∧
    (∀ (g1 : Game) (msg : String),
      (g1.target_word_progress = g1.target_word →
        make_move_finish g1 u msg today =
          MoveResult.ended true (g1.end_game u today true).1 (g1.end_game u today true).2.1
            (g1.end_game u today true).2.2 (msg ++ " You win!")) ∧
      (g1.target_word_progress ≠ g1.target_word → g1.wrong_guesses_remaining < 1 →
        make_move_finish g1 u msg today =
          MoveResult.ended false (g1.end_game u today false).1
            (g1.end_game u today false).2.1 (g1.end_game u today false).2.2
            (msg ++ " Game over!")) ∧
      (g1.target_word_progress ≠ g1.target_word → ¬ g1.wrong_guesses_remaining < 1 →
        make_move_finish g1 u msg today = MoveResult.moved g1 msg)) := by
  constructor
  · subst hl
    rw [make_move_some_eq, if_neg (by simp [hover]), if_neg (by simp [hre]),
      if_neg (by simp [hlen]), if_neg hdup]
  · intro g1 msg
    refine ⟨fun hwin => ?_, fun hnw hl1 => ?_, fun hnw hnl => ?_⟩
    · simp [make_move_finish, hwin]
    · simp [make_move_finish, hnw, hl1]
    · simp [make_move_finish, hnw, hnl]

/-- Witness for C2: a wrong guess of z on a fresh "elephant" game takes
the non-terminal branch. -/
theorem claim_C2_terminal_check_witness :
    make_move (some sampleGame) sampleUser ['z'] 0 =
      make_move_finish (make_move_apply sampleGame 'z').1 sampleUser
        (make_move_apply sampleGame 'z').2 0 ∧
    make_move_finish sampleGame sampleUser "Wrong letter guess!" 0 =
      MoveResult.moved sampleGame "Wrong letter guess!" := by
  have h := claim_C2_terminal_check sampleGame sampleUser ['z'] 0 rfl (by decide) rfl
    'z' (by decide) (by decide)
  exact ⟨h.1, (h.2 sampleGame "Wrong letter guess!").2.2 (by decide) (by decide)⟩

/-- C6: a guess whose lowercased letter already sits in
`correct_letters_guessed` is rejected as a duplicate with no mutation,
while a letter previously guessed wrong is not in that list, so it is
accepted again on a later move and decrements the counter a second
time. -/
theorem claim_C6_duplicate_policy (game : Game) (u : User) (c : Char) (today : Nat)
    (hover : game.game_over = false) (hca : c.isAlpha = true) :
    (c.toLower ∈ game.correct_letters_guessed →
      make_move (some game) u [c] today =
        MoveResult.badRequest "Letter has previously been guessed") ∧
    (c.toLower ∉ game.correct_letters_guessed → c.toLower ∉ game.target_word →
      ∀ (g1 : Game) (m1 : String),
        make_move (some game) u [c] today = MoveResult.moved g1 m1 →
          g1.wrong_guesses_remaining = game.wrong_guesses_remaining - 1 ∧
          g1.game_over = false ∧
          c.toLower ∉ g1.correct_letters_guessed ∧
          (∀ msg, make_move (some g1) u [c] today ≠ MoveResult.badRequest msg) ∧
          ((make_move (some g1) u [c] today).gameAfter g1).wrong_guesses_remaining
              = game.wrong_guesses_remaining - 2) := by
  have hlow : ([c].map Char.toLower).headD '*' = c.toLower := rfl
  have hre : reMatchAlphaPlus [c] = true := reMatch_singleton c hca
  constructor
  · intro hmem
    rw [make_move_some_eq, if_neg (by simp [hover]), if_neg (by simp [hre]),
      if_neg (by simp), if_pos (by rw [hlow]; exact hmem)]
  · intro hdup hmem g1 m1 h
    obtain ⟨hg1, hnw, hnl⟩ := moved_inversion game u [c] today g1 m1 hover hre rfl
      (by rw [hlow]; exact hdup) h
    rw [hlow] at hg1
    have happly : (make_move_apply game c.toLower).1 =
        { game with
            wrong_guesses_remaining := game.wrong_guesses_remaining - 1
            guess_history := game.guess_history ++
              [("Guess: ".toList ++ [c.toLower], "Result: Wrong letter guess".toList)] } := by
      rw [make_move_apply, if_neg hmem]
    rw [happly] at hg1
    subst hg1
    refine ⟨rfl, hover, hdup, ?_, ?_⟩
    · intro msg
      rw [make_move_some_eq, if_neg (by simp [hover]), if_neg (by simp [hre]),
        if_neg (by simp), if_neg (by rw [hlow]; exact hdup)]
      exact finish_ne_badRequest _ u _ today msg
    · rw [make_move_some_eq, if_neg (by simp [hover]), if_neg (by simp [hre]),
        if_neg (by simp), if_neg (by rw [hlow]; exact hdup)]
      rw [finish_gameAfter_rem]
      have hrem2 : (make_move_apply { game with
          wrong_guesses_remaining := game.wrong_guesses_remaining - 1
          guess_history := game.guess_history ++
            [("Guess: ".toList ++ [c.toLower], "Result: Wrong letter guess".toList)] }
          (([c].map Char.toLower).headD '*')).1.wrong_guesses_remaining
          = game.wrong_guesses_remaining - 1 - 1 := by
        rw [hlow, make_move_apply, if_neg (by exact hmem)]
      rw [hrem2]
      omega

/-- Witness for C6: the duplicate rejection after a correct a, and the
double charge for guessing z wrong twice on "elephant". -/
theorem claim_C6_duplicate_policy_witness :
    make_move (some { sampleGame with correct_letters_guessed := ['a'] }) sampleUser
        ['a'] 0 = MoveResult.badRequest "Letter has previously been guessed" ∧
    ((make_move (some sampleGameZ) sampleUser ['z'] 0).gameAfter
        sampleGameZ).wrong_guesses_remaining
      = sampleGame.wrong_guesses_remaining - 2 :=
  ⟨(claim_C6_duplicate_policy { sampleGame with correct_letters_guessed := ['a'] }
      sampleUser 'a' 0 rfl (by decide)).1 (by decide),
   ((claim_C6_duplicate_policy sampleGame sampleUser 'z' 0 rfl (by decide)).2
      (by decide) (by decide) sampleGameZ "Wrong letter guess!" rfl).2.2.2.2⟩

/-- C7: the counter starts equal to the allowance at creation, stays
within 0 and the allowance in every reachable state, and never
increases (nor drops below 0) across any `make_move` call. -/
theorem claim_C7_counter_bounds :
    (∀ (user : String) (w : List Char) (g : Game),
        Game.new_game user w = Except.ok g →
          g.wrong_guesses_remaining = g.wrong_guesses_allowed) ∧
    (∀ g : Game, Reachable g →
        0 ≤ g.wrong_guesses_remaining ∧
        g.wrong_guesses_remaining ≤ g.wrong_guesses_allowed) ∧
    (∀ g : Game, Reachable g → ∀ (u : User) (guess : List Char) (today : Nat),
        ((make_move (some g) u guess today).gameAfter g).wrong_guesses_remaining
            ≤ g.wrong_guesses_remaining ∧
        0 ≤ ((make_move (some g) u guess today).gameAfter g).wrong_guesses_remaining) := by
  refine ⟨fun user w g h => (new_game_inv user w g h).2,
    fun g hg => ?_, fun g hg u guess today => ?_⟩
  · have hi := reachable_inv g hg
    exact ⟨hi.1, hi.2.1⟩
  · have hi := reachable_inv g hg
    have hs := make_move_gameAfter_inv g u guess today hi
    exact ⟨hs.2.1, hs.1.1⟩

/-- Witness for C7 on a fresh "elephant" game and a wrong z guess. -/
theorem claim_C7_counter_bounds_witness :
    sampleGame.wrong_guesses_remaining = sampleGame.wrong_guesses_allowed ∧
    0 ≤ sampleGame.wrong_guesses_remaining ∧
    ((make_move (some sampleGame) sampleUser ['z'] 0).gameAfter
        sampleGame).wrong_guesses_remaining ≤ sampleGame.wrong_guesses_remaining :=
  ⟨claim_C7_counter_bounds.1 "alice" "elephant".toList sampleGame rfl,
   (claim_C7_counter_bounds.2.1 sampleGame
      (Reachable.init "alice" "elephant".toList sampleGame rfl)).1,
   (claim_C7_counter_bounds.2.2 sampleGame
      (Reachable.init "alice" "elephant".toList sampleGame rfl) sampleUser ['z'] 0).1⟩

/-- C10: every score created by a `make_move` call on a reachable game
has `final_score = 0` when the game was lost, and `final_score ≥ 1`
when it was won. -/
theorem claim_C10_final_score (g : Game) (hg : Reachable g) (u : User) (guess : List Char)
    (today : Nat) (won : Bool) (g' : Game) (s : Score) (u' : User) (msg : String)
    (h : make_move (some g) u guess today = MoveResult.ended won g' s u' msg) :
    (won = false → s.final_score = 0) ∧ (won = true → 1 ≤ s.final_score) := by
  have hinv := reachable_inv g hg
  rw [make_move_some_eq] at h
  split at h
  · exact absurd h (by simp)
  · split at h
    · exact absurd h (by simp)
    · split at h
      · exact absurd h (by simp)
      · split at h
        · exact absurd h (by simp)
        · rename_i hov hre hlen hdup
          have hov' : g.game_over = false := by simpa using hov
          obtain ⟨hg0, hg1, hg2⟩ := hinv
          obtain ⟨hrem1, hprog⟩ := hg2 hov'
          unfold make_move_finish at h
          split at h
          · rename_i hwin
            injection h with hwon hg' hs hu' hmsg
            subst hwon
            subst hs
            refine ⟨fun hf => absurd hf (by simp), fun _ => ?_⟩
            have hfs : (((make_move_apply g ((guess.map Char.toLower).headD '*')).1.end_game
                u today true)).2.1.final_score
                = (make_move_apply g
                    ((guess.map Char.toLower).headD '*')).1.wrong_guesses_remaining := rfl
            rw [hfs]
            by_cases hmem : (guess.map Char.toLower).headD '*' ∈ g.target_word
            · have heq : (make_move_apply g
                  ((guess.map Char.toLower).headD '*')).1.wrong_guesses_remaining
                    = g.wrong_guesses_remaining := by
                rw [make_move_apply, if_pos hmem]
              rw [heq]
              exact hrem1
            · rw [make_move_apply, if_neg hmem] at hwin
              exact absurd hwin hprog
          · split at h
            · rename_i hnw hloss
              injection h with hwon hg' hs hu' hmsg
              subst hwon
              subst hs
              refine ⟨fun _ => ?_, fun hf => absurd hf (by simp)⟩
              have hfs : (((make_move_apply g ((guess.map Char.toLower).headD '*')).1.end_game
                  u today false)).2.1.final_score
                  = (make_move_apply g
                      ((guess.map Char.toLower).headD '*')).1.wrong_guesses_remaining := rfl
              rw [hfs]
              by_cases hmem : (guess.map Char.toLower).headD '*' ∈ g.target_word
              · have heq : (make_move_apply g
                    ((guess.map Char.toLower).headD '*')).1.wrong_guesses_remaining
                      = g.wrong_guesses_remaining := by
                  rw [make_move_apply, if_pos hmem]
                rw [heq] at hloss
                omega
              · have heq : (make_move_apply g
                    ((guess.map Char.toLower).headD '*')).1.wrong_guesses_remaining
                      = g.wrong_guesses_remaining - 1 := by
                  rw [make_move_apply, if_neg hmem]
                rw [heq] at hloss
                rw [heq]
                omega
            · exact absurd h (by simp)

/-- Witness for C10: winning "aaaaaaaa" with the single guess a yields
a score of 10 ≥ 1. -/
theorem claim_C10_final_score_witness : 1 ≤ sampleWinScore.final_score :=
  (claim_C10_final_score sampleGameA
    (Reachable.init "alice" "aaaaaaaa".toList sampleGameA rfl) sampleUser ['a'] 5
    true
    { sampleGameA with
        correct_letters_guessed := ['a']
        target_word_progress := "aaaaaaaa".toList
        guess_history := [("Guess: ".toList ++ ['a'], "Result: Correct letter guess".toList)]
        game_over := true }
    sampleWinScore
    { sampleUser with wins := 1, games_played := 1, total_score := 10 }
    "Correct letter guess! You win!" (by decide)).2 rfl

/-- C3: for every game termination, `end_game` marks the game over and
produces exactly one `Score` with `wrong_guesses = allowed − remaining`,
`final_score = remaining`, the given `won` flag, the current date, and
the game's owning user; the owning user gains a win, a played game and
the final score when won, and only a played game when lost. -/
theorem claim_C3_end_game (g : Game) (u : User) (today : Nat) (won : Bool) :
    ((g.end_game u today won).1.game_over = true) ∧
    ((g.end_game u today won).2.1.wrong_guesses
        = g.wrong_guesses_allowed - g.wrong_guesses_remaining) ∧
    ((g.end_game u today won).2.1.final_score = g.wrong_guesses_remaining) ∧
    ((g.end_game u today won).2.1.won = won) ∧
    ((g.end_game u today won).2.1.date = today) ∧
    ((g.end_game u today won).2.1.user = g.user) ∧
    (won = true →
      (g.end_game u today won).2.2.wins = u.wins + 1 ∧
      (g.end_game u today won).2.2.games_played = u.games_played + 1 ∧
      (g.end_game u today won).2.2.total_score
          = u.total_score + (g.end_game u today won).2.1.final_score) ∧
    (won = false →
      (g.end_game u today won).2.2.games_played = u.games_played + 1 ∧
      (g.end_game u today won).2.2.wins = u.wins ∧
      (g.end_game u today won).2.2.total_score = u.total_score) := by
  cases won <;> simp [Game.end_game, User.add_win, User.add_loss]

/-- Witness for C3 on a concrete game and user, one outcome each way. -/
theorem claim_C3_end_game_witness :
    (sampleGame.end_game sampleUser 0 true).2.2.wins = sampleUser.wins + 1 ∧
    (sampleGame.end_game sampleUser 0 false).2.2.wins = sampleUser.wins :=
  ⟨((claim_C3_end_game sampleGame sampleUser 0 true).2.2.2.2.2.2.1 rfl).1,
   ((claim_C3_end_game sampleGame sampleUser 0 false).2.2.2.2.2.2.2 rfl).2.1⟩

/-- C4: a guess against a terminal game returns the game-already-over
outcome carrying the game byte-for-byte unchanged; no score or user is
produced and nothing is written. -/
theorem claim_C4_terminal_rejects (game : Game) (u : User) (guess : List Char) (today : Nat)
    (h : game.game_over = true) :
    make_move (some game) u guess today =
      MoveResult.gameAlreadyOver game "Game already over!" := by
  rw [make_move_some_eq, if_pos h]

/-- Witness for C4 on a concrete finished game. -/
theorem claim_C4_terminal_rejects_witness :
    make_move (some { sampleGame with game_over := true }) sampleUser ['a'] 0 =
      MoveResult.gameAlreadyOver { sampleGame with game_over := true } "Game already over!" :=
  claim_C4_terminal_rejects { sampleGame with game_over := true } sampleUser ['a'] 0 rfl

/-- C5: when the game lookup resolves to nothing, `make_move` does not
return a not-found error: it dereferences the missing game and crashes
with an `AttributeError` (while indeed mutating no state). -/
theorem claim_C5_missing_game_crashes :
    make_move none sampleUser ['a'] 0 = MoveResult.attributeError := rfl

/-- C8: the rendered progress string has the length of the target word,
shows each position's letter exactly when that letter has been guessed
and the mask `'*'` otherwise, is all masks for no guesses, and equals
the target word once every letter of it has been guessed. -/
theorem claim_C8_render_progress (w G : List Char) :
    (render_progress w G).length = w.length ∧
    (∀ (i : Nat) (c : Char), w[i]? = some c →
        (render_progress w G)[i]? = some (if c ∈ G then c else '*')) ∧
    render_progress w [] = List.replicate w.length '*' ∧
    ((∀ c ∈ w, c ∈ G) → render_progress w G = w) := by
  refine ⟨by simp [render_progress], ?_, ?_, ?_⟩
  · intro i c hc
    simp [render_progress, List.getElem?_map, hc]
  · rw [List.eq_replicate_iff]
    refine ⟨by simp [render_progress], ?_⟩
    intro b hb
    simp [render_progress] at hb
    obtain ⟨a, _, rfl⟩ := hb
    rfl
  · intro h
    unfold render_progress
    conv_rhs => rw [← List.map_id w]
    apply List.map_congr_left
    intro a ha
    simp [h a ha]

/-- Witness for C8 on the word "elephant". -/
theorem claim_C8_render_progress_witness :
    ("elephant".toList)[0]? = some 'e' ∧
    (render_progress "elephant".toList ['e'])[0]? = some 'e' ∧
    render_progress "elephant".toList "elephant".toList = "elephant".toList := by
  refine ⟨rfl, ?_, ?_⟩
  · have h := (claim_C8_render_progress "elephant".toList ['e']).2.1 0 'e' rfl
    simpa using h
  · exact (claim_C8_render_progress "elephant".toList "elephant".toList).2.2.2
      (fun c hc => hc)

/-- C9: contrary to the claim, a candidate target word containing a
whitespace character is not always rejected: Python's `$` also matches
just before a trailing newline, so `re.match("^[a-zA-Z]+$", w)` accepts
"abcdefgh\n" and `Game.new_game` creates and persists a game whose
target word contains the newline. -/
theorem claim_C9_whitespace_accepted :
    Game.new_game "alice" ("abcdefgh".toList ++ ['\n']) =
      Except.ok
        { target_word := "abcdefgh".toList ++ ['\n'], target_word_length := 9,
          correct_letters_guessed := [], target_word_progress := List.replicate 9 '*',
          wrong_guesses_allowed := 10, wrong_guesses_remaining := 10, guess_history := [],
          game_over := false, user := "alice" } := rfl

end Hangman
